import Mathlib

/-!
Verification of the IGCInfoViewer2 track service core against its
specification.  The Go source (two variants of the same service: `main.go`
and the unnamed variant file) is shallowly embedded below: pure handler
logic becomes Lean functions over an explicit store state (the MongoDB
collection is modelled as a `List TrackInfo` in insertion order, the order
in which an unfiltered find returns documents), a Go `panic` becomes an
explicit `panicked` / `none` result, and Go `float64` distances are
modelled by exact rationals with the pairwise distance function kept
abstract.
-/

/-- Embedding of the Go struct `trackInfo` (identical in both variants).
`ID int` is an `Int`; `TrackLength float64` is modelled as `ℚ`. -/
structure TrackInfo where
  id : Int
  trackLength : ℚ
  pilot : String
  glider : String
  gliderID : String
  hDate : String
  url : String
  timeStamp : String
deriving Repr, DecidableEq

/-- Backward scan of Go `filepath.Ext`: walk the path from its end
(`rev` is the reversed character list, `acc` the suffix seen so far in
order); a path separator before any dot means no extension, the first dot
found yields the suffix from that dot to the end. -/
def extScan : List Char → List Char → List Char
  | [], _ => []
  | c :: rest, acc =>
    if c = '/' then []
    else if c = '.' then '.' :: acc
    else extScan rest (c :: acc)

/-- Embedding of Go `filepath.Ext`: the suffix beginning at the final dot
in the final slash-separated element of the path, empty if that element
has no dot. -/
def fileExt (url : String) : String :=
  ⟨extScan url.data.reverse []⟩

/-- Embedding of the track-length loop in the `POST track` handler
(both variants):

    trackLength := 0.0
    for i := 1; i < len(points); i++ \x7b
      trackLength += points[i-1].Distance(points[i])
    \x7d

The point type and its `Distance` function are abstract (the external
parser supplies them); out-of-range indices are never hit by the loop but
the match keeps the translation total. -/
def trackLength {α : Type} (dist : α → α → ℚ) (points : List α) : ℚ :=
  ((List.range points.length).drop 1).foldl
    (fun acc i =>
      match points.get? (i - 1), points.get? i with
      | some p, some q => acc + dist p q
      | _, _ => acc) 0

/-- The per-index summand of the track-length loop. -/
def distAt {α : Type} (dist : α → α → ℚ) (points : List α) (i : Nat) : ℚ :=
  match points.get? (i - 1), points.get? i with
  | some p, some q => dist p q
  | _, _ => 0

lemma foldl_body_eq_add_distAt {α : Type} (dist : α → α → ℚ) (points : List α)
    (l : List Nat) (init : ℚ) :
    l.foldl (fun acc i =>
      match points.get? (i - 1), points.get? i with
      | some p, some q => acc + dist p q
      | _, _ => acc) init = init + (l.map (distAt dist points)).sum := by
  induction l generalizing init with
  | nil => simp
  | cons i t ih =>
    simp only [List.foldl_cons, List.map_cons, List.sum_cons]
    rw [ih]
    unfold distAt
    rcases h₁ : points.get? (i - 1) with _ | p <;>
      rcases h₂ : points.get? i with _ | q <;>
      (simp [h₁, h₂]; try ring)

lemma range'_succ_shift (s n : Nat) :
    List.range' (s + 1) n = (List.range' s n).map Nat.succ := by
  induction n generalizing s with
  | zero => rfl
  | succ n ih =>
    rw [List.range'_succ, List.range'_succ, ih, List.map_cons]

lemma range_drop_one (n : Nat) :
    (List.range (n + 1)).drop 1 = List.range' 1 n := by
  rw [List.range_eq_range', List.range'_succ]
  rfl

lemma map_distAt_range' {α : Type} (dist : α → α → ℚ) (p : α) (l : List α) :
    (List.range' 1 l.length).map (distAt dist (p :: l)) =
      List.zipWith dist (p :: l) l := by
  induction l generalizing p with
  | nil => rfl
  | cons q t ih =>
    simp only [List.length_cons, List.range'_succ, List.map_cons, List.zipWith_cons_cons]
    have hd : distAt dist (p :: q :: t) 1 = dist p q := rfl
    rw [hd]
    congr 1
    · rw [range'_succ_shift, List.map_map, ← ih q]
      apply List.map_congr_left
      intro i hi
      have h1 : 1 ≤ i := (List.mem_range'_1.mp hi).1
      simp only [Function.comp_apply, distAt, Nat.succ_eq_add_one]
      obtain ⟨j, rfl⟩ := Nat.exists_eq_add_of_le h1
      have e1 : (p :: q :: t).get? (1 + j + 1 - 1) = (q :: t).get? (1 + j - 1) := by
        simp [Nat.add_comm 1 j]
      have e2 : (p :: q :: t).get? (1 + j + 1) = (q :: t).get? (1 + j) := by
        simp [Nat.add_comm 1 j]
      rw [e1, e2]

/-- C5. The accumulation loop computes exactly the sum of the pairwise
distances of consecutive points: `trackLength` equals the sum of
`dist p[i-1] p[i]` over consecutive pairs (expressed as the sum of
`zipWith dist points points.tail`), and a sequence of zero or one point
yields total distance 0. -/
theorem trackLength_eq_sum_consecutive {α : Type} (dist : α → α → ℚ)
    (points : List α) :
    trackLength dist points = (List.zipWith dist points (points.drop 1)).sum
    ∧ trackLength dist ([] : List α) = 0
    ∧ ∀ p : α, trackLength dist [p] = 0 := by
  refine ⟨?_, rfl, fun p => rfl⟩
  unfold trackLength
  rw [foldl_body_eq_add_distAt, zero_add]
  cases points with
  | nil => rfl
  | cons p l =>
    rw [List.length_cons, range_drop_one, List.drop_one, List.tail_cons,
      map_distAt_range' dist p l]

/-- The metadata the external parser `igc.ParseLocation` returns on
success (the point type `α` stays abstract). -/
structure ParsedTrack (α : Type) where
  points : List α
  pilot : String
  gliderType : String
  gliderID : String
  date : String

/-- What the `POST track` handler writes to the caller.  `noResponse`
records the `if err != nil { return }` branch that writes nothing. -/
inductive IngestResponse where
  | badRequest (msg : String)
  | okId (id : Int)
  | noResponse
deriving Repr, DecidableEq

/-- Embedding of the `POST /paragliding/api/track` handler of the unnamed
variant: lexical validation of the URL, duplicate lookup by
`track_src_url`, parse, track-length accumulation, then insert with
`id := db.Count()`.  The request body is modelled by the extracted `url`
string (an absent `url` key leaves it empty, exactly the case the first
check rejects); `parse` models `igc.ParseLocation` (`none` = error);
`now` models `time.Now().String()`. -/
def ingest {α : Type} (parse : String → Option (ParsedTrack α))
    (dist : α → α → ℚ) (now : String)
    (store : List TrackInfo) (url : String) :
    IngestResponse × List TrackInfo :=
  if url = "" then (.badRequest "missing key url", store)
  else if fileExt url ≠ ".igc" then (.badRequest "not a .igc file", store)
  else
    match store.find? (fun t => t.url == url) with
    | some existingTrack => (.okId existingTrack.id, store)
    | none =>
      match parse url with
      | none => (.noResponse, store)
      | some track =>
        let len := trackLength dist track.points
        let id : Int := store.length
        (.okId id,
         store ++ [{ id := id, trackLength := len, pilot := track.pilot,
                     glider := track.gliderType, gliderID := track.gliderID,
                     hDate := track.date, url := url, timeStamp := now }])

lemma find?_append_of_none {α : Type} (p : α → Bool) (l₁ l₂ : List α)
    (h : l₁.find? p = none) : (l₁ ++ l₂).find? p = l₂.find? p := by
  rw [List.find?_append, h, Option.none_or]

/-- C3. Ingestion is idempotent per `sourceURL`: from a store not yet
holding `url`, a first successful ingest returns id `store.length` and
appends one record; a second ingest of the same `url` — with an arbitrary
parser, distance function and clock, showing no re-parsing or
re-computation can influence it — returns the same id and leaves the
store unchanged, so the count grows by exactly one across both calls. -/
theorem ingest_idempotent_per_url {α : Type}
    (parse : String → Option (ParsedTrack α)) (dist : α → α → ℚ)
    (now : String) (s₀ : List TrackInfo) (url : String)
    (tr : ParsedTrack α)
    (hne : url ≠ "") (hext : fileExt url = ".igc")
    (habs : s₀.find? (fun t => t.url == url) = none)
    (hp : parse url = some tr) :
    ∃ s₁ : List TrackInfo,
      ingest parse dist now s₀ url = (.okId (s₀.length : Int), s₁)
      ∧ s₁.length = s₀.length + 1
      ∧ ∀ {β : Type} (parse₂ : String → Option (ParsedTrack β))
          (dist₂ : β → β → ℚ) (now₂ : String),
          ingest parse₂ dist₂ now₂ s₁ url = (.okId (s₀.length : Int), s₁) := by
  have hext' : ¬ fileExt url ≠ ".igc" := by simp [hext]
  refine ⟨s₀ ++ [{ id := (s₀.length : Int),
                   trackLength := trackLength dist tr.points,
                   pilot := tr.pilot, glider := tr.gliderType,
                   gliderID := tr.gliderID, hDate := tr.date,
                   url := url, timeStamp := now }], ?_, ?_, ?_⟩
  · simp only [ingest, if_neg hne, if_neg hext', habs, hp]
  · simp
  · intro β parse₂ dist₂ now₂
    have hfind :
        ((s₀ ++ [({ id := (s₀.length : Int),
                    trackLength := trackLength dist tr.points,
                    pilot := tr.pilot, glider := tr.gliderType,
                    gliderID := tr.gliderID, hDate := tr.date,
                    url := url, timeStamp := now } : TrackInfo)]).find?
          (fun t : TrackInfo => t.url == url)) = some
            ({ id := (s₀.length : Int),
               trackLength := trackLength dist tr.points,
               pilot := tr.pilot, glider := tr.gliderType,
               gliderID := tr.gliderID, hDate := tr.date,
               url := url, timeStamp := now } : TrackInfo) := by
      rw [find?_append_of_none _ _ _ habs]
      simp [List.find?]
    simp only [ingest, if_neg hne, if_neg hext', hfind]

/-- A parser that always fails, for evaluating the handler on a concrete
parse-failure input. -/
def noParse : String → Option (ParsedTrack Unit) := fun _ => none

/-- The trivial distance function on the unit point type. -/
def distU : Unit → Unit → ℚ := fun _ _ => 0

/-- C6 (evaluation at the failing input).  On a lexically valid,
not-yet-stored URL whose parse fails, the handler writes **no** response
at all — the `if err != nil { return }` branch — rather than a
distinguishable ParseFailure error; the store is left unchanged. -/
theorem ingest_parse_failure_is_silent :
    ingest noParse distU "now" [] "http://example.com/bad.igc" =
      (.noResponse, []) := rfl

/-- A parser that always succeeds with a fixed pointless track, for
concrete witnesses. -/
def okParse : String → Option (ParsedTrack Unit) :=
  fun _ => some ⟨[], "pilot", "glider", "gid", "2018-01-01"⟩

/-- Witness for C3: ingesting a fresh URL into the empty store and then
ingesting it again (under a different parser type) returns id 0 both
times and leaves exactly one record. -/
theorem ingest_idempotent_per_url_witness :
    ∃ s₁ : List TrackInfo,
      ingest okParse distU "t0" [] "http://example.com/a.igc" = (.okId 0, s₁)
      ∧ s₁.length = 0 + 1
      ∧ ∀ {β : Type} (parse₂ : String → Option (ParsedTrack β))
          (dist₂ : β → β → ℚ) (now₂ : String),
          ingest parse₂ dist₂ now₂ s₁ "http://example.com/a.igc" =
            (.okId 0, s₁) :=
  ingest_idempotent_per_url okParse distU "t0" [] "http://example.com/a.igc"
    ⟨[], "pilot", "glider", "gid", "2018-01-01"⟩ (by decide) rfl rfl rfl

/-- Embedding of the `GET /paragliding/api/track` handler: it answers
`[0, 1, ..., count-1]` built from the store's count alone
(`ids[i] = i`). -/
def getTrackIds (store : List TrackInfo) : List Int :=
  (List.range store.length).map Int.ofNat

/-- Sequential ingestion of a list of URLs, each call being the embedded
`POST track` handler. -/
def ingestAll {α : Type} (parse : String → Option (ParsedTrack α))
    (dist : α → α → ℚ) (now : String)
    (store : List TrackInfo) (urls : List String) : List TrackInfo :=
  urls.foldl (fun s u => (ingest parse dist now s u).2) store

lemma find?_url_eq_none (store : List TrackInfo) (u : String)
    (h : ∀ t ∈ store, t.url ≠ u) :
    store.find? (fun t => t.url == u) = none := by
  rw [List.find?_eq_none]
  intro t ht
  simpa using h t ht

lemma ingestAll_urls_ids {α : Type} (parse : String → Option (ParsedTrack α))
    (dist : α → α → ℚ) (now : String) :
    ∀ (urls : List String) (store : List TrackInfo),
      urls.Nodup →
      (∀ u ∈ urls, u ≠ "" ∧ fileExt u = ".igc" ∧ (parse u).isSome) →
      (∀ u ∈ urls, ∀ t ∈ store, t.url ≠ u) →
      (ingestAll parse dist now store urls).map (·.url)
          = store.map (·.url) ++ urls
      ∧ (ingestAll parse dist now store urls).map (·.id)
          = store.map (·.id)
            ++ (List.range' store.length urls.length).map Int.ofNat := by
  intro urls
  induction urls with
  | nil => intro store _ _ _; simp [ingestAll]
  | cons u rest ih =>
    intro store hnd hv hdisj
    obtain ⟨hne, hext, hsome⟩ := hv u (List.mem_cons_self u rest)
    obtain ⟨tr, htr⟩ := Option.isSome_iff_exists.mp hsome
    have hext' : ¬ fileExt u ≠ ".igc" := by simp [hext]
    have hfind : store.find? (fun t => t.url == u) = none :=
      find?_url_eq_none store u (fun t ht => hdisj u (List.mem_cons_self u rest) t ht)
    have hstep : (ingest parse dist now store u).2 =
        store ++ [{ id := (store.length : Int),
                    trackLength := trackLength dist tr.points,
                    pilot := tr.pilot, glider := tr.gliderType,
                    gliderID := tr.gliderID, hDate := tr.date,
                    url := u, timeStamp := now }] := by
      simp only [ingest, if_neg hne, if_neg hext', hfind, htr]
    have hall : ingestAll parse dist now store (u :: rest) =
        ingestAll parse dist now ((ingest parse dist now store u).2) rest := rfl
    rw [hall, hstep]
    have hnd' : rest.Nodup := (List.nodup_cons.mp hnd).2
    have hnotmem : u ∉ rest := (List.nodup_cons.mp hnd).1
    have hv' : ∀ v ∈ rest, v ≠ "" ∧ fileExt v = ".igc" ∧ (parse v).isSome :=
      fun v hv' => hv v (List.mem_cons_of_mem u hv')
    have hdisj' : ∀ v ∈ rest, ∀ t ∈ store ++
        [({ id := (store.length : Int),
            trackLength := trackLength dist tr.points,
            pilot := tr.pilot, glider := tr.gliderType,
            gliderID := tr.gliderID, hDate := tr.date,
            url := u, timeStamp := now } : TrackInfo)], t.url ≠ v := by
      intro v hvmem t ht
      rcases List.mem_append.mp ht with h | h
      · exact hdisj v (List.mem_cons_of_mem u hvmem) t h
      · have : t = { id := (store.length : Int),
                     trackLength := trackLength dist tr.points,
                     pilot := tr.pilot, glider := tr.gliderType,
                     gliderID := tr.gliderID, hDate := tr.date,
                     url := u, timeStamp := now } := List.mem_singleton.mp h
        subst this
        intro hcontra
        cases hcontra
        exact hnotmem hvmem
    obtain ⟨hurl, hid⟩ := ih _ hnd' hv' hdisj'
    constructor
    · rw [hurl]
      simp
    · rw [hid]
      simp only [List.map_append, List.length_append, List.map_cons,
        List.map_nil, List.length_cons, List.length_nil]
      rw [List.append_assoc]
      congr 1

/-- C4. After ingesting `k` pairwise-distinct, lexically valid,
successfully parsing URLs into the empty store, the stored ids are
exactly the dense zero-based sequence `0, 1, ..., k-1` in insertion
order (each record's id was the store's count at its insertion), and the
`GET track` handler returns exactly that id sequence. -/
theorem ingested_ids_dense {α : Type} (parse : String → Option (ParsedTrack α))
    (dist : α → α → ℚ) (now : String) (urls : List String)
    (hnd : urls.Nodup)
    (hv : ∀ u ∈ urls, u ≠ "" ∧ fileExt u = ".igc" ∧ (parse u).isSome) :
    (ingestAll parse dist now [] urls).map (·.id)
        = (List.range urls.length).map Int.ofNat
    ∧ getTrackIds (ingestAll parse dist now [] urls)
        = (List.range urls.length).map Int.ofNat := by
  obtain ⟨hurl, hid⟩ := ingestAll_urls_ids parse dist now urls []
    hnd hv (by intro u _ t ht; cases ht)
  have hlen : (ingestAll parse dist now [] urls).length = urls.length := by
    have := congrArg List.length hurl
    simpa using this
  constructor
  · rw [hid]
    simp [List.range_eq_range']
  · rw [getTrackIds, hlen]

/-- Witness for C4 with two concrete distinct URLs. -/
theorem ingested_ids_dense_witness :
    (ingestAll okParse distU "t0" []
        ["http://a/0.igc", "http://a/1.igc"]).map (·.id)
      = (List.range 2).map Int.ofNat
    ∧ getTrackIds (ingestAll okParse distU "t0" []
        ["http://a/0.igc", "http://a/1.igc"])
      = (List.range 2).map Int.ofNat :=
  ingested_ids_dense okParse distU "t0" ["http://a/0.igc", "http://a/1.igc"]
    (by decide) (by decide)

/-- Embedding of `TrackDB.DeleteAllTracks` (`DELETE /admin/api/tracks`):
read the count, return 0 at once when it is zero, otherwise remove every
document and return the count that was read.  Result: (response value,
store afterwards). -/
def deleteAllTracks (store : List TrackInfo) : Int × List TrackInfo :=
  let numDeleted : Int := store.length
  if numDeleted = 0 then (0, store) else (numDeleted, [])

/-- C8. The bulk clear returns the number of records removed and empties
the store, and because ingestion assigns `id := db.Count()`, any
successful ingestion performed on the cleared store is assigned id 0. -/
theorem clear_returns_count_empties_and_resets
    (store : List TrackInfo) :
    (deleteAllTracks store).1 = (store.length : Int)
    ∧ (deleteAllTracks store).2 = []
    ∧ ∀ {α : Type} (parse : String → Option (ParsedTrack α))
        (dist : α → α → ℚ) (now url : String) (tr : ParsedTrack α),
        url ≠ "" → fileExt url = ".igc" → parse url = some tr →
        (ingest parse dist now (deleteAllTracks store).2 url).1 = .okId 0 := by
  have hempty : (deleteAllTracks store).2 = [] := by
    unfold deleteAllTracks
    by_cases h : (store.length : Int) = 0
    · have : store.length = 0 := by exact_mod_cast h
      simp [h, List.length_eq_zero.mp this]
    · simp [h]
  refine ⟨?_, hempty, ?_⟩
  · unfold deleteAllTracks
    by_cases h : (store.length : Int) = 0
    · simp [h]
    · simp [h]
  · intro α parse dist now url tr hne hext htr
    have hext' : ¬ fileExt url ≠ ".igc" := by simp [hext]
    rw [hempty]
    simp only [ingest, if_neg hne, if_neg hext', List.find?_nil, htr]
    rfl

/-- A concrete stored record for witnesses. -/
def sampleTrack : TrackInfo :=
  { id := 0, trackLength := 0, pilot := "p", glider := "g",
    gliderID := "gi", hDate := "d", url := "http://a/0.igc",
    timeStamp := "t0" }

/-- Witness for C8 on a one-record store and a concrete URL. -/
theorem clear_returns_count_empties_and_resets_witness :
    (deleteAllTracks [sampleTrack]).1 = (1 : Int)
    ∧ (deleteAllTracks [sampleTrack]).2 = []
    ∧ (ingest okParse distU "t1" (deleteAllTracks [sampleTrack]).2
        "http://a/0.igc").1 = .okId 0 := by
  obtain ⟨h1, h2, h3⟩ := clear_returns_count_empties_and_resets [sampleTrack]
  exact ⟨h1, h2, h3 okParse distU "t1" "http://a/0.igc"
    ⟨[], "pilot", "glider", "gid", "2018-01-01"⟩ (by decide) rfl rfl⟩

/-- Embedding of Go `strconv.Atoi` on the inputs this service can see:
an optional sign followed by at least one decimal digit, nothing else
(`none` = parse error).  The 64-bit range check of `Atoi` is omitted;
no claim involves inputs anywhere near it. -/
def parseGoInt (s : String) : Option Int :=
  match s.data with
  | [] => none
  | c :: rest =>
    let (sign, digits) :=
      if c = '-' then ((-1 : Int), rest)
      else if c = '+' then ((1 : Int), rest)
      else ((1 : Int), c :: rest)
    if digits.isEmpty ∨ ¬ (digits.all Char.isDigit) then none
    else some (sign *
      ((digits.foldl (fun n d => n * 10 + (d.toNat - '0'.toNat)) 0 : Nat) : Int))

/-- Embedding of `getAndValidateID` from `main.go`: `strconv.Atoi` on the
path parameter, then reject ids at or above the global `idCounter`.
(The unnamed variant omits even the upper-bound check.) -/
def getAndValidateID (idCounter : Int) (idParam : String) : Option Int :=
  match parseGoInt idParam with
  | none => none
  | some id => if idCounter ≤ id then none else some id

/-- The observable outcome of `GET track/{id}`: a 404 with empty body, a
200 with the record, or a panic raised by `getTrackByID` when the store
lookup fails. -/
inductive TrackByIdResponse where
  | notFound
  | okTrack (t : TrackInfo)
  | panicked
deriving Repr, DecidableEq

/-- Embedding of the `GET /paragliding/api/track/:id` handler of
`main.go` (with the store invariant `idCounter = store count`):
validation failure gives 404; otherwise `getTrackByID` finds the record
with that id and panics when the find fails. -/
def getTrackByIdHandler (store : List TrackInfo) (idParam : String) :
    TrackByIdResponse :=
  match getAndValidateID (store.length : Int) idParam with
  | none => .notFound
  | some id =>
    match store.find? (fun t => t.id == id) with
    | some t => .okTrack t
    | none => .panicked

/-- C7 (evaluation at the failing input).  The id parameter `"-1"` is a
well-formed integer below `idCounter`, so it passes validation, and the
store lookup then fails: the handler panics (surfacing as a 500) instead
of returning the 404 empty body the claim requires for every id that
matches no stored record. -/
theorem negative_id_panics_instead_of_404 :
    getTrackByIdHandler [] "-1" = .panicked ∧
    getTrackByIdHandler [sampleTrack] "-1" = .panicked := by
  constructor
  · rfl
  · rfl

/-- Embedding of `fmtDurationAsISO8601` (`main.go`), at whole-second
granularity (every emitted component is an integer; for a nonnegative
duration Go truncation of `Hours()`, `Minutes()`, `Seconds()` agrees
with this integer computation):

    days    := int64(duration.Hours() / 24)
    years   := days / 365
    months  := years / 12
    hours   := int64(math.Mod(duration.Hours(), 24))
    minutes := int64(math.Mod(duration.Minutes(), 60))
    seconds := int64(math.Mod(duration.Seconds(), 60)) -/
def fmtDurationAsISO8601 (totalSeconds : Nat) : String :=
  let days := totalSeconds / 3600 / 24
  let years := days / 365
  let months := years / 12
  let hours := (totalSeconds / 3600) % 24
  let minutes := (totalSeconds / 60) % 60
  let seconds := totalSeconds % 60
  "P" ++ toString years ++ "Y" ++ toString months ++ "M" ++ toString days
    ++ "DT" ++ toString hours ++ "H" ++ toString minutes ++ "M"
    ++ toString seconds ++ "S"

/-- C9. The uptime string is
`P{years}Y{months}M{days}DT{hours}H{minutes}M{seconds}S` where `days` is
the floor of the total elapsed hours over 24, `years` and `months` are
derived from `days` (`years = days / 365`, `months = years / 12`) with
the days consumed by them never subtracted — witnessed by
`365 * years ≤ days` for every duration and by the concrete two-year
duration rendering both `2` years and all `730` days — and hours,
minutes, seconds are the remainders mod 24, 60 and 60. -/
theorem uptime_is_overlapping_decomposition (s : Nat) :
    fmtDurationAsISO8601 s =
      "P" ++ toString (s / 3600 / 24 / 365) ++ "Y"
        ++ toString (s / 3600 / 24 / 365 / 12) ++ "M"
        ++ toString (s / 3600 / 24) ++ "DT"
        ++ toString ((s / 3600) % 24) ++ "H"
        ++ toString ((s / 60) % 60) ++ "M"
        ++ toString (s % 60) ++ "S"
    ∧ 365 * (s / 3600 / 24 / 365) ≤ s / 3600 / 24
    ∧ fmtDurationAsISO8601 (2 * 365 * 24 * 3600) = "P2Y0M730DT0H0M0S" := by
  refine ⟨rfl, ?_, by decide⟩
  rw [Nat.mul_comm]
  exact Nat.div_mul_le_self _ _

/-- Observable effects of the `main.go` `POST track` handler, in program
order. -/
inductive MainEvent where
  | respondBadRequest (msg : String)
  | respondOK (id : Int)
  | incrCounter
  | panicked
deriving Repr, DecidableEq

/-- The `main.go` variant's mutable state: the process-wide `idCounter`
global and the store. -/
structure MainState where
  idCounter : Int
  store : List TrackInfo
deriving Repr, DecidableEq

/-- Embedding of the `POST /paragliding/api/track` handler of `main.go`,
recording each written response, the counter increment and any panic as
an ordered event list.  `insertFails` models the storage insert
returning an error (the record is then not stored).  Program order of
the tail: insert, respond `{"id": idCounter}`, `idCounter++`, and only
then `if err != nil { panic(err) }`. -/
def ingestMain {α : Type} (parse : String → Option (ParsedTrack α))
    (dist : α → α → ℚ) (now : String) (insertFails : Bool)
    (st : MainState) (url : String) : List MainEvent × MainState :=
  if url = "" then ([.respondBadRequest "missing key url"], st)
  else if fileExt url ≠ ".igc" then ([.respondBadRequest "not a .igc file"], st)
  else
    match st.store.find? (fun t => t.url == url) with
    | some existingTrack => ([.respondOK existingTrack.id], st)
    | none =>
      match parse url with
      | none => ([], st)
      | some track =>
        let newRec : TrackInfo :=
          { id := st.idCounter,
            trackLength := trackLength dist track.points,
            pilot := track.pilot, glider := track.gliderType,
            gliderID := track.gliderID, hDate := track.date,
            url := url, timeStamp := now }
        let store' := if insertFails then st.store else st.store ++ [newRec]
        ([.respondOK st.idCounter, .incrCounter]
            ++ (if insertFails then [.panicked] else []),
         { idCounter := st.idCounter + 1, store := store' })

/-- C10. In the `main.go` variant, when the storage insert fails on a
fresh, valid, parsable URL, the emitted event sequence is: success
response `{"id": idCounter}` first, then the counter increment, and only
then the panic from the error check — so the caller has already received
a success id for a record that was never stored (the store is
unchanged). -/
theorem main_responds_ok_before_insert_error_check {α : Type}
    (parse : String → Option (ParsedTrack α)) (dist : α → α → ℚ)
    (now : String) (st : MainState) (url : String) (tr : ParsedTrack α)
    (hne : url ≠ "") (hext : fileExt url = ".igc")
    (habs : st.store.find? (fun t => t.url == url) = none)
    (hp : parse url = some tr) :
    ingestMain parse dist now true st url =
      ([.respondOK st.idCounter, .incrCounter, .panicked],
       { idCounter := st.idCounter + 1, store := st.store }) := by
  have hext' : ¬ fileExt url ≠ ".igc" := by simp [hext]
  simp only [ingestMain, if_neg hne, if_neg hext', habs, hp]
  rfl

/-- Witness for C10: from the empty store with counter 0, a failing
insert still yields the success response with id 0 before the panic. -/
theorem main_responds_ok_before_insert_error_check_witness :
    ingestMain okParse distU "t0" true ⟨0, []⟩ "http://a/0.igc" =
      ([.respondOK 0, .incrCounter, .panicked], ⟨1, []⟩) :=
  main_responds_ok_before_insert_error_check okParse distU "t0" ⟨0, []⟩
    "http://a/0.igc" ⟨[], "pilot", "glider", "gid", "2018-01-01"⟩
    (by decide) rfl rfl rfl

/-- Embedding of `TrackDB.GetLatestTrack`: find the record whose id is
`Count() - 1`; `none` models the panic when the find fails. -/
def getLatestTrack (store : List TrackInfo) : Option TrackInfo :=
  store.find? (fun t => t.id == (store.length : Int) - 1)

/-- The JSON window the ticker handlers emit (`t_latest`, `t_start`,
`t_stop`, `tracks`); the diagnostic `processing` latency is wall-clock
and is not modelled. -/
structure TickerPage where
  tLatest : String
  tStart : String
  tStop : String
  ids : List Int
deriving Repr, DecidableEq

/-- Embedding of the `GET /paragliding/api/ticker` (no-cursor) handler of
the unnamed variant: fetch all tracks, cap the window at 5, slice
`tracks[len(tracks)-numTracksToShow : len(tracks)]`, and emit that
window's ids and its first and last timestamps.  `none` models the
panics (the latest-track lookup failing, or `tracksToShow[0]` on an
empty store). -/
def tickerNoCursor (store : List TrackInfo) : Option TickerPage :=
  let numTracksToShow := if store.length < 5 then store.length else 5
  let tracksToShow := store.drop (store.length - numTracksToShow)
  let ids := tracksToShow.map (·.id)
  match getLatestTrack store, tracksToShow.head?, tracksToShow.getLast? with
  | some latest, some first, some lastShown =>
      some { tLatest := latest.timeStamp, tStart := first.timeStamp,
             tStop := lastShown.timeStamp, ids := ids }
  | _, _, _ => none

/-- A store record with id `i`, a distinct URL and the timestamp
`"t" ++ i`. -/
def mkTrack (i : Nat) : TrackInfo :=
  { id := Int.ofNat i, trackLength := 0, pilot := "p", glider := "g",
    gliderID := "gi", hDate := "d",
    url := "http://a/" ++ toString i ++ ".igc",
    timeStamp := "t" ++ toString i }

/-- Twelve records with ids 0..11 in insertion order. -/
def store12 : List TrackInfo := (List.range 12).map mkTrack

/-- C1 (evaluation at the failing input).  With 12 stored records and
page size 5, the no-cursor ticker returns the **newest** five ids
`[7, 8, 9, 10, 11]` with window timestamps of records 7 and 11 — not the
oldest five `[0, 1, 2, 3, 4]` the claim (and the handler's own comment,
"The first track returned should be the oldest") requires. -/
theorem ticker_first_page_returns_newest_not_oldest :
    tickerNoCursor store12 =
      some { tLatest := "t11", tStart := "t7", tStop := "t11",
             ids := [7, 8, 9, 10, 11] }
    ∧ ([7, 8, 9, 10, 11] : List Int) ≠ [0, 1, 2, 3, 4] := by
  constructor
  · rfl
  · decide

/-- Go slice indexing `l[i]` with an `int` index; `none` models the
out-of-range panic. -/
def goIndex {β : Type} (l : List β) (i : Int) : Option β :=
  if i < 0 then none else l.get? i.toNat

/-- Go slicing `l[lo:hi]` with `int` bounds; `none` models the panic
raised unless `0 ≤ lo ≤ hi ≤ len(l)`. -/
def goSlice {β : Type} (l : List β) (lo hi : Int) : Option (List β) :=
  if 0 ≤ lo ∧ lo ≤ hi ∧ hi ≤ (l.length : Int) then
    some ((l.drop lo.toNat).take (hi - lo).toNat)
  else none

/-- Outcome of `GET ticker/{cursorTimestamp}`: 404, a page, or a runtime
panic. -/
inductive TickerCursorResult where
  | notFound
  | page (p : TickerPage)
  | panicked
deriving Repr, DecidableEq

/-- Embedding of the `GET /paragliding/api/ticker/:param` default branch
of the unnamed variant (param not the keyword `"latest"`): fetch all
tracks, find the record whose `timestamp` equals the cursor (404 when
that find fails), take `idOfQuery := tracks[track.ID].ID`, window
`tracks[rangeMin:rangeMax]` with `rangeMin = idOfQuery` and
`rangeMax = min(idOfQuery + 5, len(tracks))`, and emit the window's ids
and its first and last timestamps.  `panicked` models the Go indexing
and latest-track-lookup panics. -/
def tickerWithCursor (store : List TrackInfo) (cursor : String) :
    TickerCursorResult :=
  match store.find? (fun t => t.timeStamp == cursor) with
  | none => .notFound
  | some track =>
    match goIndex store track.id with
    | none => .panicked
    | some trackAtQuery =>
      let idOfQuery := trackAtQuery.id
      let trackCount : Int := store.length
      let numTracksToShow : Int := 5
      let rangeMin := idOfQuery
      let rangeMax0 := idOfQuery + numTracksToShow
      let rangeMax := if rangeMax0 > trackCount then trackCount else rangeMax0
      match goSlice store rangeMin rangeMax with
      | none => .panicked
      | some tracksToShow =>
        let ids := tracksToShow.map (·.id)
        match getLatestTrack store, tracksToShow.head?,
            tracksToShow.getLast? with
        | some latest, some first, some lastShown =>
            .page { tLatest := latest.timeStamp, tStart := first.timeStamp,
                    tStop := lastShown.timeStamp, ids := ids }
        | _, _, _ => .panicked

lemma dense_id_at (store : List TrackInfo)
    (hdense : store.map (fun t => t.id) =
      (List.range store.length).map Int.ofNat)
    (j : Nat) (hj : j < store.length) :
    store[j].id = Int.ofNat j := by
  have h1 := congrArg (fun l => l[j]?) hdense
  simp only [List.getElem?_map] at h1
  rw [List.getElem?_eq_getElem hj,
    List.getElem?_eq_getElem (by simpa using hj :
      j < (List.range store.length).length)] at h1
  simp only [Option.map_some', List.getElem_range] at h1
  exact Option.some.inj h1

lemma getLatestTrack_some (store : List TrackInfo)
    (hdense : store.map (fun t => t.id) =
      (List.range store.length).map Int.ofNat)
    (hne : 0 < store.length) :
    ∃ lt, getLatestTrack store = some lt := by
  rw [← Option.isSome_iff_exists, getLatestTrack, List.find?_isSome]
  have hlen1 : store.length - 1 < store.length := by omega
  have hidlast := dense_id_at store hdense (store.length - 1) hlen1
  refine ⟨store[store.length - 1], List.getElem_mem _, ?_⟩
  simp only [beq_iff_eq, hidlast]
  have : Int.ofNat (store.length - 1) = ((store.length - 1 : Nat) : Int) := rfl
  omega

/-- C2. Under the store invariant that ids are dense in insertion order,
the cursor ticker answers `notFound` exactly when no stored record's
`insertedAt` equals the cursor (exact equality, no tolerance), and on a
match returns a page whose ids start at the matched record's own id
(inclusive) and extend up to 5 ids, clipped at the store's end. -/
theorem ticker_cursor_window (store : List TrackInfo) (cursor : String)
    (hdense : store.map (fun t => t.id) =
      (List.range store.length).map Int.ofNat) :
    (store.find? (fun t => t.timeStamp == cursor) = none →
      tickerWithCursor store cursor = .notFound)
    ∧ ∀ tr, store.find? (fun t => t.timeStamp == cursor) = some tr →
        ∃ p, tickerWithCursor store cursor = .page p
          ∧ p.ids = (((List.range store.length).drop tr.id.toNat).take 5).map
              Int.ofNat := by
  constructor
  · intro h
    simp only [tickerWithCursor, h]
  · intro tr hfind
    obtain ⟨n, hget⟩ := List.mem_iff_get.mp (List.mem_of_find?_eq_some hfind)
    have hlt : (n : Nat) < store.length := n.isLt
    have hgetE : store[(n : Nat)] = tr := hget
    have hid : tr.id = Int.ofNat n := by
      rw [← hgetE]; exact dense_id_at store hdense n hlt
    have hidc : tr.id = (((n : Nat) : Nat) : Int) := hid
    have htoNat : tr.id.toNat = (n : Nat) := by omega
    have hgidx : goIndex store tr.id = some tr := by
      unfold goIndex
      rw [if_neg (by omega : ¬ tr.id < 0), htoNat,
        List.get?_eq_getElem? store (n : Nat), List.getElem?_eq_getElem hlt,
        hgetE]
    obtain ⟨lt, hlatest⟩ := getLatestTrack_some store hdense (by omega)
    simp only [tickerWithCursor, hfind, hgidx]
    rcases le_or_lt ((n : Nat) + 5) store.length with hcase | hcase
    · -- no clipping: the window is 5 records long
      rw [if_neg (by omega :
        ¬ ((store.length : Int) < tr.id + 5))]
      have hk : ((tr.id + 5) - tr.id).toNat = 5 := by omega
      have hslice : goSlice store tr.id (tr.id + 5) =
          some ((store.drop (n : Nat)).take 5) := by
        unfold goSlice
        rw [if_pos ⟨by omega, by omega, by omega⟩, htoNat, hk]
      have hwlen : 0 < ((store.drop (n : Nat)).take 5).length := by
        rw [List.length_take, List.length_drop]
        omega
      obtain ⟨f, hf⟩ : ∃ f, ((store.drop (n : Nat)).take 5).head? = some f := by
        rw [← Option.isSome_iff_exists, List.head?_isSome]
        intro hnil
        rw [hnil] at hwlen
        simp at hwlen
      obtain ⟨g, hg⟩ : ∃ g, ((store.drop (n : Nat)).take 5).getLast? =
          some g := by
        rw [← Option.isSome_iff_exists, List.getLast?_isSome]
        intro hnil
        rw [hnil] at hwlen
        simp at hwlen
      simp only [hslice, hlatest, hf, hg]
      refine ⟨_, rfl, ?_⟩
      show ((store.drop (n : Nat)).take 5).map (fun t => t.id) = _
      rw [htoNat, List.map_take, List.map_drop, hdense, ← List.map_drop,
        ← List.map_take]
    · -- clipping: the window runs to the end of the store
      rw [if_pos (by omega : (store.length : Int) < tr.id + 5)]
      have hk : (((store.length : Int)) - tr.id).toNat =
          store.length - (n : Nat) := by omega
      have hslice : goSlice store tr.id ((store.length : Int)) =
          some ((store.drop (n : Nat)).take (store.length - (n : Nat))) := by
        unfold goSlice
        rw [if_pos ⟨by omega, by omega, by omega⟩, htoNat, hk]
      have htake : (store.drop (n : Nat)).take (store.length - (n : Nat)) =
          store.drop (n : Nat) :=
        List.take_of_length_le (by rw [List.length_drop])
      rw [htake] at hslice
      have hwlen : 0 < (store.drop (n : Nat)).length := by
        rw [List.length_drop]
        omega
      obtain ⟨f, hf⟩ : ∃ f, (store.drop (n : Nat)).head? = some f := by
        rw [← Option.isSome_iff_exists, List.head?_isSome]
        intro hnil
        rw [hnil] at hwlen
        simp at hwlen
      obtain ⟨g, hg⟩ : ∃ g, (store.drop (n : Nat)).getLast? = some g := by
        rw [← Option.isSome_iff_exists, List.getLast?_isSome]
        intro hnil
        rw [hnil] at hwlen
        simp at hwlen
      simp only [hslice, hlatest, hf, hg]
      refine ⟨_, rfl, ?_⟩
      show (store.drop (n : Nat)).map (fun t => t.id) = _
      have htake5 : ((List.range store.length).drop (n : Nat)).take 5 =
          (List.range store.length).drop (n : Nat) :=
        List.take_of_length_le (by rw [List.length_drop, List.length_range]; omega)
      rw [htoNat, htake5, List.map_drop, hdense, ← List.map_drop]

/-- Witness for C2 on the 12-record store: an unmatched cursor yields
`notFound`, and the cursor equal to record 4's timestamp yields the
window of ids 4..8. -/
theorem ticker_cursor_window_witness :
    tickerWithCursor store12 "zzz" = .notFound
    ∧ ∃ p, tickerWithCursor store12 "t4" = .page p
        ∧ p.ids = (((List.range store12.length).drop
            ((mkTrack 4).id.toNat)).take 5).map Int.ofNat := by
  constructor
  · exact (ticker_cursor_window store12 "zzz" (by decide)).1 (by decide)
  · exact (ticker_cursor_window store12 "t4" (by decide)).2 (mkTrack 4)
      (by decide)
